import Mathlib

/-!
# Verification of the process scheduling/optimization engine

A shallow embedding, in Lean 4, of the core modules of the
AI-performance-Analyzer-OS repository:

* `src/core/optimization/synergy_core.py` (`SynergyCore`),
* `src/core/quantum/scheduler.py` (`QuantumScheduler`),
* `src/ai/models/continual_learner.py` (`ContinualLearner`),
* `src/utils/quantum_entanglement.py` (`QuantumEntanglement`).

Python floats are embedded as `ℚ` where only field arithmetic and
comparisons occur (synergy core, continual learner) and as `ℝ` where the
code takes square roots (L2 norms in the scheduler and the entanglement
module).  Wall-clock time (`datetime.now()` / timestamps) is passed in
explicitly as a rational `now` parameter.  Calls into the OS and into
external libraries (psutil, win32, torch, river) are modelled as explicit
parameters: a success oracle for per-action OS calls, the machine's core
count and total memory, the drift flag and the anomaly score returned by
the river detectors, and an evaluation function standing for the weights
of a torch model.

Definitions come first, theorems afterwards.
-/

namespace AIPA

/-! ## Telemetry data model (src/core/monitoring/system_monitor.py)

`ProcessMetrics` and `SystemMetrics` are the dataclasses produced by the
system monitor and consumed by every core component.  `io_counters` is an
optional pair (read_bytes, write_bytes); `none` models the Python `None`. -/

structure ProcessMetrics where
  pid : ℕ
  name : String
  cpu_percent : ℚ
  memory_percent : ℚ
  io_counters : Option (ℚ × ℚ) := none
  thread_count : ℕ := 0
  create_time : ℚ := 0
  status : String := ""
  priority : ℤ := 0
deriving DecidableEq, Repr

structure SystemMetrics where
  timestamp : ℚ
  cpu_percent : ℚ
  memory_percent : ℚ
  processes : List ProcessMetrics
  context_switches : ℤ
  interrupts : ℤ
deriving DecidableEq, Repr

/-- The summed io bytes of a process: `read_bytes + write_bytes` when the
process has io counters, `0` when `io_counters` is `None` (the Python code
guards with `if proc.io_counters`). -/
def ioBytes (p : ProcessMetrics) : ℚ :=
  match p.io_counters with
  | some rw => rw.1 + rw.2
  | none => 0

/-- Python's `str.lower()`: lowercase every character. -/
def pyLower (s : String) : String := ⟨s.data.map Char.toLower⟩

/-! ## SynergyCore (src/core/optimization/synergy_core.py) -/

/-- A value stored in an action's `parameters` dict: a string (e.g. a
priority class name) or a number. -/
inductive PVal where
  | str (s : String)
  | num (q : ℚ)
  | int (z : ℤ)
deriving DecidableEq, Repr

/-- Embeds `OptimizationAction` dataclass. -/
structure OptimizationAction where
  pid : ℕ
  action_type : String
  parameters : List (String × PVal)
  timestamp : ℚ
  priority : ℚ
deriving DecidableEq, Repr

/-- Machine facts read through psutil inside the synergy core:
`psutil.cpu_count()` and `psutil.virtual_memory().total`. -/
structure Env where
  cpu_count : ℕ
  total_memory : ℚ
deriving DecidableEq, Repr

/-- The mutable state of a `SynergyCore` instance. -/
structure SynergyCore where
  optimization_history : List OptimizationAction
  action_threshold : ℚ
  last_optimization : ℚ
  cpu_threshold : ℚ
  memory_threshold : ℚ
  io_threshold : ℚ
deriving DecidableEq, Repr

/-- Embeds `SynergyCore.__init__`: thresholds 0.7 / 80 / 85 / 1,000,000, empty
history, `last_optimization = now`. -/
def SynergyCore.init (now : ℚ) : SynergyCore :=
  { optimization_history := []
    action_threshold := 0.7
    last_optimization := now
    cpu_threshold := 80
    memory_threshold := 85
    io_threshold := 1000000 }

/-- Embeds `SynergyCore._should_optimize`: at least 0.5 seconds elapsed since
`last_optimization`. -/
def should_optimize (s : SynergyCore) (now : ℚ) : Bool :=
  decide ((0.5 : ℚ) ≤ now - s.last_optimization)

/-- Embeds `SynergyCore._is_process_optimizable`: `False` for pid < 100 and for
the protected names `system`, `svchost.exe`, `explorer.exe`
(case-insensitively); `True` otherwise. -/
def is_process_optimizable (p : ProcessMetrics) : Bool :=
  if p.pid < 100 then false
  else if pyLower p.name ∈ ["system", "svchost.exe", "explorer.exe"] then false
  else true

/-- Stable insertion of `x` into a list sorted descending by `key`:
`x` is placed before the first element whose key is ≤ its own, so among
equal keys earlier elements stay first — the behaviour of Python's stable
`sorted(..., key=key, reverse=True)`. -/
def insertDescBy (key : ProcessMetrics → ℚ) (x : ProcessMetrics) :
    List ProcessMetrics → List ProcessMetrics
  | [] => [x]
  | y :: ys => if key y ≤ key x then x :: y :: ys else y :: insertDescBy key x ys

/-- Stable descending sort by `key` (insertion sort), the embedding of
`sorted(processes, key=..., reverse=True)`. -/
def sortDescBy (key : ProcessMetrics → ℚ) : List ProcessMetrics → List ProcessMetrics
  | [] => []
  | x :: xs => insertDescBy key x (sortDescBy key xs)

/-- Embeds `SynergyCore._calculate_optimal_affinity`: full core mask when
cpu% > 80, half the cores otherwise. -/
def calculate_optimal_affinity (env : Env) (p : ProcessMetrics) : ℕ :=
  if 80 < p.cpu_percent then 2 ^ env.cpu_count - 1
  else 2 ^ (env.cpu_count / 2) - 1

/-- Truncation toward zero, Python's `int()` on a float. -/
def truncQ (q : ℚ) : ℤ := if 0 ≤ q then ⌊q⌋ else ⌈q⌉

/-- Embeds `SynergyCore._calculate_working_set_limit`:
`int(memory_percent * total * 0.5)` when memory% > 80, factor 0.75
otherwise. -/
def calculate_working_set_limit (env : Env) (p : ProcessMetrics) : ℤ :=
  if 80 < p.memory_percent then truncQ (p.memory_percent * env.total_memory * 0.5)
  else truncQ (p.memory_percent * env.total_memory * 0.75)

/-- Embeds `SynergyCore._optimize_cpu_usage`: top 5 processes by cpu% (stable
descending sort); for each with cpu% > 50, a `cpu_optimization` action
with priority `cpu_percent / 100`. -/
def optimize_cpu_usage (env : Env) (now : ℚ) (m : SystemMetrics) :
    List OptimizationAction :=
  ((sortDescBy (fun p => p.cpu_percent) m.processes).take 5).filterMap fun p =>
    if 50 < p.cpu_percent then
      some { pid := p.pid
             action_type := "cpu_optimization"
             parameters := [("priority_class", PVal.str "BELOW_NORMAL"),
                            ("affinity_mask", PVal.int (calculate_optimal_affinity env p))]
             timestamp := now
             priority := p.cpu_percent / 100 }
    else none

/-- Embeds `SynergyCore._optimize_memory_usage`: top 5 processes by memory%; for
each with memory% > 50, a `memory_optimization` action with priority
`memory_percent / 100`. -/
def optimize_memory_usage (env : Env) (now : ℚ) (m : SystemMetrics) :
    List OptimizationAction :=
  ((sortDescBy (fun p => p.memory_percent) m.processes).take 5).filterMap fun p =>
    if 50 < p.memory_percent then
      some { pid := p.pid
             action_type := "memory_optimization"
             parameters := [("priority_class", PVal.str "BELOW_NORMAL"),
                            ("working_set_limit", PVal.int (calculate_working_set_limit env p))]
             timestamp := now
             priority := p.memory_percent / 100 }
    else none

/-- Embeds `SynergyCore._optimize_process`: an `io_optimization` action (priority
0.8) when the summed io bytes exceed `io_threshold`, then a
`thread_optimization` action (priority 0.7) when `thread_count > 100`. -/
def optimize_process (s : SynergyCore) (now : ℚ) (p : ProcessMetrics) :
    List OptimizationAction :=
  (if p.io_counters.isSome ∧ s.io_threshold < ioBytes p then
    [{ pid := p.pid
       action_type := "io_optimization"
       parameters := [("priority_class", PVal.str "BELOW_NORMAL"),
                      ("io_priority", PVal.str "LOW")]
       timestamp := now
       priority := 0.8 }]
  else []) ++
  (if 100 < p.thread_count then
    [{ pid := p.pid
       action_type := "thread_optimization"
       parameters := [("priority_class", PVal.str "BELOW_NORMAL"),
                      ("thread_limit", PVal.num 100)]
       timestamp := now
       priority := 0.7 }]
  else [])

/-- Embeds `SynergyCore._analyze_system_state`: cpu actions when the aggregate
cpu% exceeds `cpu_threshold`, then memory actions when the aggregate
memory% exceeds `memory_threshold`, then per-process io/thread actions for
every process passing `_is_process_optimizable`. -/
def analyze_system_state (s : SynergyCore) (env : Env) (now : ℚ)
    (m : SystemMetrics) : List OptimizationAction :=
  (if s.cpu_threshold < m.cpu_percent then optimize_cpu_usage env now m else []) ++
  (if s.memory_threshold < m.memory_percent then optimize_memory_usage env now m else []) ++
  m.processes.flatMap fun p =>
    if is_process_optimizable p then optimize_process s now p else []

/-- Embeds `SynergyCore._apply_optimization`: the win32 calls are modelled by the
oracle `ok` (did the whole body up to the history append succeed); the
action is appended to `optimization_history` exactly when nothing raised,
and a raising action leaves the state unchanged (the exception is caught
and logged). -/
def apply_optimization (ok : OptimizationAction → Bool) (s : SynergyCore)
    (a : OptimizationAction) : SynergyCore :=
  if ok a then { s with optimization_history := s.optimization_history ++ [a] }
  else s

/-- Embeds `SynergyCore.process`: under cooldown (< 0.5 s since
`last_optimization`) do nothing; otherwise analyze, apply every action
whose priority meets `action_threshold`, and set `last_optimization`.
The first component is the batch of actions handed to
`_apply_optimization`. -/
def SynergyCore.process (ok : OptimizationAction → Bool) (env : Env) (now : ℚ)
    (m : SystemMetrics) (s : SynergyCore) :
    List OptimizationAction × SynergyCore :=
  if should_optimize s now then
    let actions := analyze_system_state s env now m
    let executed := actions.filter fun a => decide (s.action_threshold ≤ a.priority)
    let s' := executed.foldl (apply_optimization ok) s
    (executed, { s' with last_optimization := now })
  else ([], s)

/-! ## QuantumScheduler (src/core/quantum/scheduler.py)

The "quantum" arithmetic is ordinary vector arithmetic over `ℝ`; a state
vector of `num_qubits = K` entries is `Fin K → ℝ`.  `np.random.rand` at
process creation is modelled by an explicit `fresh` parameter. -/

/-- The `resource_usage` dict of a scheduler `ProcessState`. -/
structure Usage where
  cpu : ℝ
  memory : ℝ
  io : ℝ

/-- Scheduler `ProcessState` dataclass. -/
structure PState (K : ℕ) where
  pid : ℕ
  priority : ℝ
  quantum_state : Fin K → ℝ
  last_update : ℚ
  resource_usage : Usage

noncomputable instance {K : ℕ} : Inhabited (PState K) :=
  ⟨⟨0, 0, fun _ => 0, 0, ⟨0, 0, 0⟩⟩⟩

/-- One record of the scheduler's optimization history. -/
structure SchedHist where
  timestamp : ℚ
  temperature : ℝ
  priorities : List (ℕ × ℝ)

/-- The mutable state of a `QuantumScheduler` instance (`num_qubits = K`).
`process_states` is the pid-keyed dict in insertion order. -/
structure QScheduler (K : ℕ) where
  process_states : List (ℕ × PState K)
  optimization_history : List SchedHist
  last_optimization : ℚ
  temperature : ℝ
  annealing_rate : ℝ
  min_temperature : ℝ

/-- Embeds `QuantumScheduler.__init__`: temperature 1.0, annealing rate 0.95,
minimum temperature 0.01. -/
noncomputable def QScheduler.init (K : ℕ) (now : ℚ) : QScheduler K :=
  { process_states := []
    optimization_history := []
    last_optimization := now
    temperature := 1
    annealing_rate := 0.95
    min_temperature := 0.01 }

/-- The resource-usage snapshot the scheduler stores for a process. -/
noncomputable def usageOf (p : ProcessMetrics) : Usage :=
  ⟨(p.cpu_percent : ℝ), (p.memory_percent : ℝ), (ioBytes p : ℝ)⟩

/-- One iteration of the `_update_process_states` loop: refresh the entry
for `p.pid` (new `last_update` timestamp and `resource_usage`) when the
dict already holds it, otherwise create a state with a random vector
`fresh p.pid` and priority 0. -/
noncomputable def updateStateEntry {K : ℕ} (fresh : ℕ → Fin K → ℝ) (ts : ℚ)
    (l : List (ℕ × PState K)) (p : ProcessMetrics) : List (ℕ × PState K) :=
  if (l.lookup p.pid).isSome then
    l.map (fun e =>
      if e.1 = p.pid then
        (e.1, { e.2 with last_update := ts, resource_usage := usageOf p })
      else e)
  else
    l ++ [(p.pid, PState.mk p.pid 0 (fresh p.pid) ts (usageOf p))]

noncomputable def update_process_states {K : ℕ} (fresh : ℕ → Fin K → ℝ) (s : QScheduler K)
    (m : SystemMetrics) : QScheduler K :=
  { s with process_states :=
      m.processes.foldl (updateStateEntry fresh m.timestamp) s.process_states }

/-- Embeds `QuantumScheduler._calculate_interaction`: the mean of the absolute
cpu, memory and io differences (higher difference ⇒ stronger coupling). -/
noncomputable def calculate_interaction (u1 u2 : Usage) : ℝ :=
  (|u1.cpu - u2.cpu| + |u1.memory - u2.memory| + |u1.io - u2.io|) / 3

/-- Embeds `QuantumScheduler._create_hamiltonian`: an n×n matrix, zero diagonal,
entry (i,j) = (j,i) = interaction of states i and j for i < j. -/
noncomputable def create_hamiltonian {K : ℕ} (states : List (PState K)) : ℕ → ℕ → ℝ :=
  fun i j =>
    if i < states.length ∧ j < states.length then
      if i < j then
        calculate_interaction (states.getD i default).resource_usage
          (states.getD j default).resource_usage
      else if j < i then
        calculate_interaction (states.getD j default).resource_usage
          (states.getD i default).resource_usage
      else 0
    else 0

/-- The all-zero state vector. -/
def zeroVec (K : ℕ) : Fin K → ℝ := fun _ => 0

/-- Squared L2 norm of a state vector. -/
noncomputable def normSq {K : ℕ} (v : Fin K → ℝ) : ℝ := ∑ i, v i ^ 2

/-- Embeds `np.linalg.norm`: the L2 norm. -/
noncomputable def vnorm {K : ℕ} (v : Fin K → ℝ) : ℝ := Real.sqrt (normSq v)

/-- Embeds `v / np.linalg.norm(v)`, exactly as the source computes it: no guard
against a zero norm. -/
noncomputable def normalizeVec {K : ℕ} (v : Fin K → ℝ) : Fin K → ℝ :=
  fun k => v k / vnorm v

/-- The force on process `i`: `Σ_{j ≠ i} H[i,j] * (state_j - state_i)`,
read off the current (partially updated) state list. -/
noncomputable def forceVec {K : ℕ} (H : ℕ → ℕ → ℝ) (cur : List (Fin K → ℝ)) (i : ℕ) :
    Fin K → ℝ :=
  fun k => ∑ j ∈ Finset.range cur.length,
    if i ≠ j then H i j * (cur.getD j (zeroVec K) k - cur.getD i (zeroVec K) k)
    else 0

/-- Process `i`'s state after force accumulation, before renormalization:
`state_i + force * temperature`. -/
noncomputable def postForce {K : ℕ} (H : ℕ → ℕ → ℝ) (T : ℝ) (cur : List (Fin K → ℝ))
    (i : ℕ) : Fin K → ℝ :=
  fun k => cur.getD i (zeroVec K) k + T * forceVec H cur i k

/-- The body of the inner annealing loop for one index `i`: store the
renormalized post-force vector in place. -/
noncomputable def updateOne {K : ℕ} (H : ℕ → ℕ → ℝ) (T : ℝ)
    (cur : List (Fin K → ℝ)) (i : ℕ) : List (Fin K → ℝ) :=
  cur.set i (normalizeVec (postForce H T cur i))

/-- The state list of one annealing step after the inner loop has
processed indices `0, …, k-1`. -/
noncomputable def annealUpto {K : ℕ} (H : ℕ → ℕ → ℝ) (T : ℝ)
    (cur : List (Fin K → ℝ)) (k : ℕ) : List (Fin K → ℝ) :=
  (List.range k).foldl (updateOne H T) cur

/-- One annealing step: update indices `0, …, n-1` in order, each reading
the already-updated values of earlier indices. -/
noncomputable def annealStep {K : ℕ} (H : ℕ → ℕ → ℝ) (T : ℝ)
    (cur : List (Fin K → ℝ)) : List (Fin K → ℝ) :=
  (List.range cur.length).foldl (updateOne H T) cur

/-- Embeds `QuantumScheduler._quantum_annealing`: 100 annealing steps at fixed
temperature. -/
noncomputable def quantum_annealing {K : ℕ} (H : ℕ → ℕ → ℝ) (T : ℝ)
    (cur : List (Fin K → ℝ)) : List (Fin K → ℝ) :=
  (annealStep H T)^[100] cur

/-- Embeds `np.mean` of a state vector. -/
noncomputable def npMean {K : ℕ} (v : Fin K → ℝ) : ℝ := (∑ i, v i) / K

/-- Embeds `QuantumScheduler._calculate_priority`:
`0.7 * mean(quantum_state) + 0.3 * (cpu + memory) / 2`. -/
noncomputable def calculate_priority {K : ℕ} (q : Fin K → ℝ) (u : Usage) : ℝ :=
  0.7 * npMean q + 0.3 * ((u.cpu + u.memory) / 2)

/-- Modelled from the spec: the priority formula the specification states
for a relaxation pass — `0.7 * mean(state) + 0.3 * ((cpu% + mem%)/2)/100`,
clamped to [0,1].  Declared only to be compared with the source's
`calculate_priority`. -/
noncomputable def spec_priority {K : ℕ} (q : Fin K → ℝ) (u : Usage) : ℝ :=
  min 1 (max 0 (0.7 * npMean q + 0.3 * ((u.cpu + u.memory) / 2) / 100))

/-- Embeds `QuantumScheduler._optimize_scheduling`: anneal all state vectors
against the hamiltonian, store each annealed vector and its new priority,
append a history record, decay the temperature (floored at
`min_temperature`) and stamp `last_optimization`. -/
noncomputable def optimize_scheduling {K : ℕ} (now : ℚ) (s : QScheduler K) :
    QScheduler K :=
  if s.process_states.isEmpty then s
  else
    let states := s.process_states.map Prod.snd
    let H := create_hamiltonian states
    let opt := quantum_annealing H s.temperature (states.map (·.quantum_state))
    let newPS := List.zipWith
      (fun (e : ℕ × PState K) v =>
        (e.1, { e.2 with quantum_state := v
                         priority := calculate_priority v e.2.resource_usage }))
      s.process_states opt
    { s with process_states := newPS
             optimization_history := s.optimization_history ++
               [⟨now, s.temperature, newPS.map fun e => (e.1, e.2.priority)⟩]
             temperature := max s.min_temperature (s.temperature * s.annealing_rate)
             last_optimization := now }

/-- Embeds `QuantumScheduler.update`: refresh the per-process states, then run an
optimization pass when at least 1 second has elapsed. -/
noncomputable def QScheduler.update {K : ℕ} (fresh : ℕ → Fin K → ℝ) (now : ℚ)
    (m : SystemMetrics) (s : QScheduler K) : QScheduler K :=
  let s' := update_process_states fresh s m
  if (1 : ℚ) ≤ now - s'.last_optimization then optimize_scheduling now s' else s'

/-- Embeds `QuantumScheduler.get_process_priority`:
`self.process_states.get(pid, None)` — it returns the whole
`ProcessState` object (or `None`), despite the `Optional[float]`
annotation. -/
def get_process_priority {K : ℕ} (s : QScheduler K) (pid : ℕ) :
    Option (PState K) :=
  s.process_states.lookup pid

/-! ## ContinualLearner (src/ai/models/continual_learner.py)

A torch `ProcessPredictor` module is opaque weight data; each instance is
modelled by a numeric identifier (`next_model` generates fresh ones), and
an evaluation function `nn : model id → window → (cpu, mem, io)` stands
for the LSTM forward pass when a prediction value is needed.  An Adam
optimizer's observable content here is its learning rate.  The river
drift/anomaly detectors are external streaming state; their verdicts reach
the learner only as the boolean `drift_detected` and the score returned by
`score_one`, which are therefore oracle parameters of `update`. -/

/-- Embeds `ProcessFeatures` dataclass. -/
structure ProcessFeatures where
  pid : ℕ
  cpu_usage : ℚ
  memory_usage : ℚ
  io_usage : ℚ
  thread_count : ℕ
  priority : ℤ
  timestamp : ℚ
deriving DecidableEq, Repr

/-- Embeds `ContinualLearner._extract_features`. -/
def extract_features (p : ProcessMetrics) (ts : ℚ) : ProcessFeatures :=
  ⟨p.pid, p.cpu_percent, p.memory_percent, ioBytes p, p.thread_count, p.priority, ts⟩

/-- The mutable state of a `ContinualLearner` instance. -/
structure ContinualLearner where
  predictors : List (ℕ × ℕ)
  optimizers : List (ℕ × ℚ)
  feature_history : List (ℕ × List ProcessFeatures)
  learning_rate : ℚ
  next_model : ℕ
deriving DecidableEq, Repr

/-- Embeds `self.sequence_length = 10`. -/
def sequence_length : ℕ := 10

/-- Embeds `ContinualLearner.__init__`: empty maps, learning rate 0.001. -/
def ContinualLearner.init : ContinualLearner := ⟨[], [], [], 0.001, 0⟩

/-- Python-dict assignment `d[k] = v` on an association list: replace in
place when the key exists, append otherwise. -/
def upsert {α : Type} (l : List (ℕ × α)) (k : ℕ) (v : α) : List (ℕ × α) :=
  if (l.lookup k).isSome then l.map fun e => if e.1 = k then (k, v) else e
  else l ++ [(k, v)]

/-- Embeds `ContinualLearner._update_process_model`: create predictor, optimizer
(at the shared learning rate) and empty window for a new pid; append the
features; pop the oldest entry when the window exceeds `sequence_length`.
The subsequent `_train_process_model` (one Adam step once the window is
full) mutates only the opaque torch weights. -/
def update_process_model (s : ContinualLearner) (pid : ℕ)
    (f : ProcessFeatures) : ContinualLearner :=
  let s₁ :=
    if (s.predictors.lookup pid).isNone then
      { s with predictors := s.predictors ++ [(pid, s.next_model)]
               optimizers := s.optimizers ++ [(pid, s.learning_rate)]
               feature_history := s.feature_history ++ [(pid, [])]
               next_model := s.next_model + 1 }
    else s
  let hist := ((s₁.feature_history.lookup pid).getD []) ++ [f]
  let hist' := if sequence_length < hist.length then hist.drop 1 else hist
  { s₁ with feature_history := upsert s₁.feature_history pid hist' }

/-- Re-key every tracked pid to a fresh `ProcessPredictor` instance:
ids `base`, `base + 1`, … in iteration order. -/
def freshModels (base : ℕ) : List (ℕ × ℕ) → List (ℕ × ℕ)
  | [] => []
  | e :: es => (e.1, base) :: freshModels (base + 1) es

/-- Embeds `ContinualLearner._handle_drift`: for every pid with a predictor,
replace the model by a fresh `ProcessPredictor`, replace the optimizer by
a fresh Adam at the current shared learning rate, and clear the feature
window. -/
def handle_drift (s : ContinualLearner) : ContinualLearner :=
  { predictors := freshModels s.next_model s.predictors
    optimizers := s.predictors.foldl (fun o e => upsert o e.1 s.learning_rate)
      s.optimizers
    feature_history := s.predictors.foldl
      (fun h e => upsert h e.1 ([] : List ProcessFeatures)) s.feature_history
    learning_rate := s.learning_rate
    next_model := s.next_model + s.predictors.length }

/-- Embeds `ContinualLearner._handle_anomaly`: double the shared learning rate
and write the doubled rate into every optimizer's param groups. -/
def handle_anomaly (s : ContinualLearner) : ContinualLearner :=
  { s with learning_rate := s.learning_rate * 2
           optimizers := s.optimizers.map fun e => (e.1, s.learning_rate * 2) }

/-- Embeds `ContinualLearner._detect_drift`: `drift_detected` is the ADWIN
verdict after feeding it this tick's aggregate vector. -/
def detect_drift (s : ContinualLearner) (drift_detected : Bool) :
    ContinualLearner :=
  if drift_detected then handle_drift s else s

/-- Embeds `ContinualLearner._detect_anomalies`: `score` is what
`HalfSpaceTrees.score_one` returns for this tick's aggregate vector; the
handler fires when it exceeds 0.8. -/
def detect_anomalies (s : ContinualLearner) (score : ℚ) : ContinualLearner :=
  if 0.8 < score then handle_anomaly s else s

/-- Embeds `ContinualLearner.update`: per-process feature/model updates in
snapshot order, then drift detection, then anomaly detection. -/
def ContinualLearner.update (s : ContinualLearner) (m : SystemMetrics)
    (drift_detected : Bool) (score : ℚ) : ContinualLearner :=
  detect_anomalies
    (detect_drift
      (m.processes.foldl
        (fun s' p => update_process_model s' p.pid (extract_features p m.timestamp))
        s)
      drift_detected)
    score

/-- Embeds `ContinualLearner.predict_process_metrics`: `None` when the pid has no
predictor or its feature window is empty; otherwise the LSTM forward pass
(`nn`) on the whole window. -/
def predict_process_metrics (nn : ℕ → List ProcessFeatures → ℚ × ℚ × ℚ)
    (s : ContinualLearner) (pid : ℕ) : Option (ℚ × ℚ × ℚ) :=
  match s.predictors.lookup pid with
  | none => none
  | some model =>
    match (s.feature_history.lookup pid).getD [] with
    | [] => none
    | fs => some (nn model fs)

/-! ## QuantumEntanglement (src/utils/quantum_entanglement.py) -/

/-- The process dicts handed to `QuantumEntanglement`: only the keys read
by `_calculate_similarity` (all `.get(..., 0)` defaults applied). -/
structure EProc where
  pid : Option ℕ
  cpu_percent : ℝ
  memory_percent : ℝ
  io_rate : ℝ

/-- The metric vector `[cpu_percent, memory_percent, io_rate]`. -/
noncomputable def metricsOf (p : EProc) : Fin 3 → ℝ :=
  ![p.cpu_percent, p.memory_percent, p.io_rate]

/-- Embeds `m / np.linalg.norm(m) if np.any(m) else m`: normalize unless every
entry is zero (`np.any` is true exactly when some entry is nonzero). -/
noncomputable def guardNormalize (v : Fin 3 → ℝ) : Fin 3 → ℝ :=
  haveI := Classical.dec (v = 0)
  if v = 0 then v else normalizeVec v

/-- Embeds `QuantumEntanglement._calculate_similarity`: cosine similarity of the
guarded-normalized metric vectors, clipped below at 0. -/
noncomputable def calculate_similarity (p1 p2 : EProc) : ℝ :=
  max 0 (∑ i, guardNormalize (metricsOf p1) i * guardNormalize (metricsOf p2) i)

/-! ## Concrete fixtures

Telemetry snapshots and component states used by the concrete theorems
below. -/

/-- An OS oracle under which every action applies cleanly. -/
def okTrue : OptimizationAction → Bool := fun _ => true

/-- An OS oracle under which only the action for pid 300 applies; every
other action raises (e.g. `OpenProcess` fails on a vanished process). -/
def okPid300 : OptimizationAction → Bool := fun a => a.pid == 300

/-- A 4-core machine with 10⁹ bytes of memory. -/
def envStd : Env := ⟨4, 1000000000⟩

/-- A cpu-hungry process with pid 50, below the pid-100 ceiling. -/
def p50 : ProcessMetrics := ⟨50, "worker.exe", 92, 40, some (0, 0), 10, 0, "", 0⟩

/-- A snapshot with aggregate cpu 95% whose only process is `p50`. -/
def m95 : SystemMetrics := ⟨1, 95, 40, [p50], 0, 0⟩

/-- An io-heavy eligible process with pid 200. -/
def pIo200 : ProcessMetrics := ⟨200, "workera", 10, 10, some (2000000, 0), 10, 0, "", 0⟩

/-- An io-heavy eligible process with pid 300. -/
def pIo300 : ProcessMetrics := ⟨300, "workerb", 10, 10, some (3000000, 0), 10, 0, "", 0⟩

/-- A quiet snapshot whose two processes both exceed the io threshold. -/
def mIo : SystemMetrics := ⟨1, 10, 10, [pIo200, pIo300], 0, 0⟩

/-- A quiet snapshot with no processes. -/
def mEmpty : SystemMetrics := ⟨1, 10, 10, [], 0, 0⟩

/-- The cpu action the synthesizer emits for `p50` out of `m95`. -/
def cpuAct50 : OptimizationAction :=
  ⟨50, "cpu_optimization",
   [("priority_class", PVal.str "BELOW_NORMAL"), ("affinity_mask", PVal.int 15)],
   1, 92 / 100⟩

/-- The io action the synthesizer emits for `pIo200`. -/
def ioAct200 : OptimizationAction :=
  ⟨200, "io_optimization",
   [("priority_class", PVal.str "BELOW_NORMAL"), ("io_priority", PVal.str "LOW")],
   1, 0.8⟩

/-- The io action the synthesizer emits for `pIo300`. -/
def ioAct300 : OptimizationAction :=
  ⟨300, "io_optimization",
   [("priority_class", PVal.str "BELOW_NORMAL"), ("io_priority", PVal.str "LOW")],
   1, 0.8⟩

/-- One feature sample for pid 7. -/
def f1 : ProcessFeatures := ⟨7, 1, 2, 3, 4, 5, 0⟩

/-- A learner tracking pid 7 with a single sample in its window. -/
def learner1 : ContinualLearner := ⟨[(7, 0)], [(7, 0.001)], [(7, [f1])], 0.001, 1⟩

/-- A stand-in LSTM evaluation: every model predicts (0, 0, 0). -/
def nn0 : ℕ → List ProcessFeatures → ℚ × ℚ × ℚ := fun _ _ => (0, 0, 0)

/-- The state vector with every entry 1/2 (unit L2 norm for K = 4). -/
noncomputable def qhalf : Fin 4 → ℝ := fun _ => 1 / 2

/-- Resource usage cpu 50%, memory 50%, io 0. -/
noncomputable def usage50 : Usage := ⟨50, 50, 0⟩

/-- A scheduler `ProcessState` for pid 500 holding `qhalf` and
`usage50`. -/
noncomputable def pstate500 : PState 4 := ⟨500, 0, qhalf, 0, usage50⟩

/-- A scheduler tracking only pid 500, at temperature 1. -/
noncomputable def sched1 : QScheduler 4 := ⟨[(500, pstate500)], [], 0, 1, 0.95, 0.01⟩

/-- The first standard basis vector of ℝ⁴. -/
noncomputable def e0vec : Fin 4 → ℝ := fun k => if k = 0 then 1 else 0

/-- The negation of `e0vec`. -/
noncomputable def negE0 : Fin 4 → ℝ := fun k => if k = 0 then -1 else 0

/-- A coupling matrix with every off-diagonal entry 1/2. -/
noncomputable def Hhalf : ℕ → ℕ → ℝ := fun i j => if i = j then 0 else 1 / 2

/-- The zero coupling matrix. -/
noncomputable def Hzero : ℕ → ℕ → ℝ := fun _ _ => 0

/-- A scheduler `ProcessState` with all-zero resource usage. -/
noncomputable def pUse0 : PState 4 := ⟨1, 0, qhalf, 0, ⟨0, 0, 0⟩⟩

/-- A scheduler `ProcessState` with cpu usage 90. -/
noncomputable def pUse90 : PState 4 := ⟨2, 0, qhalf, 0, ⟨90, 0, 0⟩⟩

/-- An entanglement process dict with usage (50, 50, 0). -/
noncomputable def ep50 : EProc := ⟨some 1, 50, 50, 0⟩

/-- An entanglement process dict with all-zero usage. -/
noncomputable def epZero : EProc := ⟨some 2, 0, 0, 0⟩

/-- An entanglement process dict with usage (3, 4, 0). -/
noncomputable def ep34 : EProc := ⟨none, 3, 4, 0⟩

/-! # Theorems -/

/-! ## SynergyCore lemmas -/

lemma optimization_history_foldl (ok : OptimizationAction → Bool)
    (l : List OptimizationAction) (s : SynergyCore) :
    (l.foldl (apply_optimization ok) s).optimization_history
      = s.optimization_history ++ l.filter ok := by
  induction l generalizing s with
  | nil => simp
  | cons a l ih =>
    rw [List.foldl_cons, ih]
    by_cases h : ok a
    · simp [apply_optimization, h, List.filter_cons]
    · simp [apply_optimization, h, List.filter_cons]

lemma action_type_mem_optimize_cpu (env : Env) (now : ℚ) (m : SystemMetrics)
    (a : OptimizationAction) (h : a ∈ optimize_cpu_usage env now m) :
    a.action_type = "cpu_optimization" := by
  rcases List.mem_filterMap.1 h with ⟨p, _, he⟩
  by_cases c : (50 : ℚ) < p.cpu_percent
  · rw [if_pos c, Option.some_inj] at he
    rw [← he]
  · rw [if_neg c] at he
    exact absurd he (by simp)

lemma action_type_mem_optimize_memory (env : Env) (now : ℚ) (m : SystemMetrics)
    (a : OptimizationAction) (h : a ∈ optimize_memory_usage env now m) :
    a.action_type = "memory_optimization" := by
  rcases List.mem_filterMap.1 h with ⟨p, _, he⟩
  by_cases c : (50 : ℚ) < p.memory_percent
  · rw [if_pos c, Option.some_inj] at he
    rw [← he]
  · rw [if_neg c] at he
    exact absurd he (by simp)

lemma pid_mem_optimize_process (s : SynergyCore) (now : ℚ) (p : ProcessMetrics)
    (a : OptimizationAction) (h : a ∈ optimize_process s now p) : a.pid = p.pid := by
  unfold optimize_process at h
  rcases List.mem_append.1 h with h1 | h1 <;>
    [skip; skip] <;>
    · split at h1
      · rw [List.mem_singleton] at h1
        rw [h1]
      · exact absurd h1 (List.not_mem_nil a)

lemma is_process_optimizable_spec (p : ProcessMetrics)
    (h : is_process_optimizable p = true) :
    100 ≤ p.pid ∧ pyLower p.name ∉ ["system", "svchost.exe", "explorer.exe"] := by
  unfold is_process_optimizable at h
  by_cases h1 : p.pid < 100
  · rw [if_pos h1] at h
    exact absurd h (by simp)
  · rw [if_neg h1] at h
    by_cases h2 : pyLower p.name ∈ ["system", "svchost.exe", "explorer.exe"]
    · rw [if_pos h2] at h
      exact absurd h (by simp)
    · exact ⟨Nat.le_of_not_lt h1, h2⟩

/-! ## C9: cooldown makes the second invocation a no-op -/

/-- C9.  If `SynergyCore.process` is invoked again less than 0.5 s after
`last_optimization`, it is a no-op: it emits an empty batch and returns
the synthesizer state (history included) completely unchanged. -/
theorem process_within_cooldown_is_noop (ok : OptimizationAction → Bool)
    (env : Env) (now : ℚ) (m : SystemMetrics) (s : SynergyCore)
    (h : now - s.last_optimization < 0.5) :
    SynergyCore.process ok env now m s = ([], s) := by
  have hso : should_optimize s now = false := by
    simp only [should_optimize, decide_eq_false_iff_not, not_le]
    exact h
  simp [SynergyCore.process, hso]

/-- Witness for C9 at a concrete input: a second invocation 0.2 s after
construction changes nothing. -/
theorem process_within_cooldown_is_noop_witness :
    (0.2 : ℚ) - (SynergyCore.init 0).last_optimization < 0.5 ∧
    SynergyCore.process okTrue envStd 0.2 mEmpty (SynergyCore.init 0)
      = ([], SynergyCore.init 0) :=
  ⟨by norm_num [SynergyCore.init],
   process_within_cooldown_is_noop okTrue envStd 0.2 mEmpty (SynergyCore.init 0)
     (by norm_num [SynergyCore.init])⟩

/-! ## C10: per-action failures are skipped, not recorded, not blocking -/

/-- C10.  Outside the cooldown, the batch handed to `_apply_optimization`
is exactly the threshold-filtered candidate list — every one of its
actions is attempted regardless of earlier failures — and the new history
is the old history extended by exactly the successfully applied actions,
in application order; a failing action is not appended. -/
theorem process_history_records_successes (ok : OptimizationAction → Bool)
    (env : Env) (now : ℚ) (m : SystemMetrics) (s : SynergyCore)
    (h : (0.5 : ℚ) ≤ now - s.last_optimization) :
    (SynergyCore.process ok env now m s).1
      = (analyze_system_state s env now m).filter
          (fun a => decide (s.action_threshold ≤ a.priority)) ∧
    (SynergyCore.process ok env now m s).2.optimization_history
      = s.optimization_history ++
        ((analyze_system_state s env now m).filter
          (fun a => decide (s.action_threshold ≤ a.priority))).filter ok := by
  have hso : should_optimize s now = true := by
    simp only [should_optimize, decide_eq_true_eq]
    exact h
  refine ⟨?_, ?_⟩ <;> simp [SynergyCore.process, hso, optimization_history_foldl]

/-- Witness for C10 at a concrete input: of the two io actions of `mIo`,
the one for pid 200 raises and the one for pid 300 applies; the attempted
batch still holds both, and the history records exactly the pid-300
action. -/
theorem process_history_records_successes_witness :
    (0.5 : ℚ) ≤ 1 - (SynergyCore.init 0).last_optimization ∧
    (SynergyCore.process okPid300 envStd 1 mIo (SynergyCore.init 0)).1
      = (analyze_system_state (SynergyCore.init 0) envStd 1 mIo).filter
          (fun a => decide ((SynergyCore.init 0).action_threshold ≤ a.priority)) ∧
    (SynergyCore.process okPid300 envStd 1 mIo (SynergyCore.init 0)).1
      = [ioAct200, ioAct300] ∧
    (SynergyCore.process okPid300 envStd 1 mIo (SynergyCore.init 0)).2.optimization_history
      = [ioAct300] := by
  have h1 := process_history_records_successes okPid300 envStd 1 mIo (SynergyCore.init 0)
    (by norm_num [SynergyCore.init])
  have ho200 : is_process_optimizable pIo200 = true := by decide
  have ho300 : is_process_optimizable pIo300 = true := by decide
  have hio200 : pIo200.io_counters = some (2000000, 0) := rfl
  have hio300 : pIo300.io_counters = some (3000000, 0) := rfl
  have hth200 : pIo200.thread_count = 10 := rfl
  have hth300 : pIo300.thread_count = 10 := rfl
  have hpid200 : pIo200.pid = 200 := rfl
  have hpid300 : pIo300.pid = 300 := rfl
  have hana : analyze_system_state (SynergyCore.init 0) envStd 1 mIo
      = [ioAct200, ioAct300] := by
    norm_num [analyze_system_state, optimize_process, ho200, ho300,
      hio200, hio300, hth200, hth300, hpid200, hpid300,
      ioBytes, SynergyCore.init, envStd, mIo, ioAct200, ioAct300, List.flatMap]
  have hfil : (analyze_system_state (SynergyCore.init 0) envStd 1 mIo).filter
      (fun a => decide ((SynergyCore.init 0).action_threshold ≤ a.priority))
      = [ioAct200, ioAct300] := by
    rw [hana]
    norm_num [List.filter, SynergyCore.init, ioAct200, ioAct300]
  have hb1 : (200 == 300) = false := by decide
  have hb2 : (300 == 300) = true := by decide
  refine ⟨by norm_num [SynergyCore.init], h1.1, ?_, ?_⟩
  · rw [h1.1, hfil]
  · rw [h1.2, hfil]
    have hap1 : ioAct200.pid = 200 := rfl
    have hap2 : ioAct300.pid = 300 := rfl
    norm_num [SynergyCore.init, List.filter, okPid300, hap1, hap2, hb1, hb2]

/-! ## C1: eligibility filtering of synthesized actions -/

/-- C1, amended.  Only the per-process path is eligibility-filtered:
every `io_optimization` or `thread_optimization` action synthesized by
`_analyze_system_state` targets a process of the snapshot that passes
`_is_process_optimizable` — its pid is at least 100 and its lowercased
name is none of `system`, `svchost.exe`, `explorer.exe`.  (The cpu and
memory paths carry no such filter; see the counterexample.) -/
theorem io_thread_actions_target_only_eligible (s : SynergyCore) (env : Env)
    (now : ℚ) (m : SystemMetrics) (a : OptimizationAction)
    (ha : a ∈ analyze_system_state s env now m)
    (ht : a.action_type = "io_optimization" ∨ a.action_type = "thread_optimization") :
    ∃ p, p ∈ m.processes ∧ p.pid = a.pid ∧ is_process_optimizable p = true ∧
      100 ≤ p.pid ∧ pyLower p.name ∉ ["system", "svchost.exe", "explorer.exe"] := by
  unfold analyze_system_state at ha
  rcases List.mem_append.1 ha with h1 | h2
  · rcases List.mem_append.1 h1 with hc | hm
    · have hty : a.action_type = "cpu_optimization" := by
        by_cases c : s.cpu_threshold < m.cpu_percent
        · rw [if_pos c] at hc
          exact action_type_mem_optimize_cpu env now m a hc
        · rw [if_neg c] at hc
          exact absurd hc (List.not_mem_nil a)
      rcases ht with h | h <;> · rw [hty] at h; exact absurd h (by decide)
    · have hty : a.action_type = "memory_optimization" := by
        by_cases c : s.memory_threshold < m.memory_percent
        · rw [if_pos c] at hm
          exact action_type_mem_optimize_memory env now m a hm
        · rw [if_neg c] at hm
          exact absurd hm (List.not_mem_nil a)
      rcases ht with h | h <;> · rw [hty] at h; exact absurd h (by decide)
  · rcases List.mem_flatMap.1 h2 with ⟨p, hp, hap⟩
    by_cases c : is_process_optimizable p
    · rw [if_pos c] at hap
      obtain ⟨h100, hname⟩ := is_process_optimizable_spec p c
      exact ⟨p, hp, (pid_mem_optimize_process s now p a hap).symm, c, h100, hname⟩
    · rw [if_neg c] at hap
      exact absurd hap (List.not_mem_nil a)

/-- Witness for (amended) C1 at a concrete input: the io action emitted
for pid 200 out of `mIo` targets an eligible process. -/
theorem io_thread_actions_target_only_eligible_witness :
    ioAct200 ∈ analyze_system_state (SynergyCore.init 0) envStd 1 mIo ∧
    (ioAct200.action_type = "io_optimization" ∨
      ioAct200.action_type = "thread_optimization") ∧
    ∃ p, p ∈ mIo.processes ∧ p.pid = ioAct200.pid ∧
      is_process_optimizable p = true ∧ 100 ≤ p.pid ∧
      pyLower p.name ∉ ["system", "svchost.exe", "explorer.exe"] := by
  have ho200 : is_process_optimizable pIo200 = true := by decide
  have ho300 : is_process_optimizable pIo300 = true := by decide
  have hio200 : pIo200.io_counters = some (2000000, 0) := rfl
  have hio300 : pIo300.io_counters = some (3000000, 0) := rfl
  have hth200 : pIo200.thread_count = 10 := rfl
  have hth300 : pIo300.thread_count = 10 := rfl
  have hpid200 : pIo200.pid = 200 := rfl
  have hpid300 : pIo300.pid = 300 := rfl
  have hana : analyze_system_state (SynergyCore.init 0) envStd 1 mIo
      = [ioAct200, ioAct300] := by
    norm_num [analyze_system_state, optimize_process, ho200, ho300,
      hio200, hio300, hth200, hth300, hpid200, hpid300,
      ioBytes, SynergyCore.init, envStd, mIo, ioAct200, ioAct300, List.flatMap]
  have hmem : ioAct200 ∈ analyze_system_state (SynergyCore.init 0) envStd 1 mIo := by
    rw [hana]
    exact List.mem_cons_self ioAct200 [ioAct300]
  exact ⟨hmem, Or.inl rfl,
    io_thread_actions_target_only_eligible (SynergyCore.init 0) envStd 1 mIo
      ioAct200 hmem (Or.inl rfl)⟩

/-- Counterexample to C1 as stated: from the snapshot `m95` (aggregate
cpu 95%) the synthesizer emits a cpu action for the excluded process with
pid 50 < 100, and `process` records it in `OptimizationHistory`. -/
theorem synthesizer_targets_pid50_counterexample :
    cpuAct50.pid = 50 ∧ cpuAct50.pid < 100 ∧
    cpuAct50 ∈ analyze_system_state (SynergyCore.init 0) envStd 1 m95 ∧
    cpuAct50 ∈ (SynergyCore.process okTrue envStd 1 m95
      (SynergyCore.init 0)).2.optimization_history := by
  have hno50 : is_process_optimizable p50 = false := by decide
  have hcpu50 : p50.cpu_percent = 92 := rfl
  have hpid50 : p50.pid = 50 := rfl
  have hana : analyze_system_state (SynergyCore.init 0) envStd 1 m95
      = [cpuAct50] := by
    norm_num [analyze_system_state, optimize_cpu_usage, optimize_memory_usage,
      sortDescBy, insertDescBy, calculate_optimal_affinity, hno50, hcpu50, hpid50,
      SynergyCore.init, envStd, m95, cpuAct50,
      List.flatMap, List.filterMap]
  have hso : should_optimize (SynergyCore.init 0) 1 = true := by
    norm_num [should_optimize, SynergyCore.init]
  refine ⟨rfl, by decide, by rw [hana]; exact List.mem_singleton.2 rfl, ?_⟩
  have := optimization_history_foldl okTrue
    ((analyze_system_state (SynergyCore.init 0) envStd 1 m95).filter
      (fun a => decide ((SynergyCore.init 0).action_threshold ≤ a.priority)))
    (SynergyCore.init 0)
  simp only [SynergyCore.process, hso, if_true]
  rw [optimization_history_foldl, hana]
  norm_num [SynergyCore.init, List.filter, okTrue, cpuAct50]

/-! ## ContinualLearner lemmas -/

lemma lookup_cons_pair {α : Type} (k ek : ℕ) (ev : α) (l : List (ℕ × α)) :
    List.lookup k ((ek, ev) :: l) = if k = ek then some ev else List.lookup k l := by
  by_cases h : k = ek
  · simp [List.lookup, h]
  · simp [List.lookup, h, (by simp [h] : (k == ek) = false)]

lemma lookup_map_replace_self {α : Type} (l : List (ℕ × α)) (k : ℕ) (v : α)
    (h : (l.lookup k).isSome) :
    ((l.map fun e => if e.1 = k then (k, v) else e).lookup k) = some v := by
  induction l with
  | nil => simp [List.lookup] at h
  | cons e l ih =>
    obtain ⟨ek, ev⟩ := e
    by_cases he : ek = k
    · subst he
      simp [lookup_cons_pair]
    · have hk : ¬ k = ek := fun hh => he hh.symm
      have h' : (l.lookup k).isSome := by
        rw [lookup_cons_pair, if_neg hk] at h
        exact h
      simpa [he, hk, lookup_cons_pair] using ih h'

lemma lookup_map_replace_ne {α : Type} (l : List (ℕ × α)) (k k' : ℕ) (v : α)
    (h : k' ≠ k) :
    ((l.map fun e => if e.1 = k then (k, v) else e).lookup k') = l.lookup k' := by
  induction l with
  | nil => simp
  | cons e l ih =>
    obtain ⟨ek, ev⟩ := e
    by_cases he : ek = k
    · subst he
      have hk : ¬ k' = ek := h
      simp [lookup_cons_pair, hk, ih]
    · by_cases hk : k' = ek
      · subst hk
        simp [lookup_cons_pair, he]
      · simp [lookup_cons_pair, he, hk, ih]

lemma lookup_append_single {α : Type} (l : List (ℕ × α)) (k k' : ℕ) (v : α) :
    ((l ++ [(k, v)]).lookup k') = if k' = k then ((l.lookup k').or (some v))
      else l.lookup k' := by
  induction l with
  | nil =>
    by_cases hk : k' = k
    · simp [lookup_cons_pair, hk]
    · simp [lookup_cons_pair, hk]
  | cons e l ih =>
    obtain ⟨ek, ev⟩ := e
    by_cases hk : k' = ek
    · subst hk
      rw [List.cons_append, lookup_cons_pair, if_pos rfl, lookup_cons_pair, if_pos rfl]
      split <;> simp
    · rw [List.cons_append, lookup_cons_pair, if_neg hk, lookup_cons_pair, if_neg hk, ih]

lemma lookup_upsert {α : Type} (l : List (ℕ × α)) (k k' : ℕ) (v : α) :
    (upsert l k v).lookup k' = if k' = k then some v else l.lookup k' := by
  unfold upsert
  by_cases hs : (l.lookup k).isSome
  · rw [if_pos hs]
    by_cases hk : k' = k
    · subst hk
      rw [if_pos rfl, lookup_map_replace_self l k' v hs]
    · rw [if_neg hk, lookup_map_replace_ne l k k' v hk]
  · rw [if_neg hs, lookup_append_single]
    by_cases hk : k' = k
    · subst hk
      have hnone : l.lookup k' = none := Option.not_isSome_iff_eq_none.1 hs
      simp [hnone]
    · simp [hk]

lemma lookup_foldl_upsert {α : Type} (preds : List (ℕ × ℕ))
    (init : List (ℕ × α)) (c : α) (k : ℕ) :
    ((preds.foldl (fun acc e => upsert acc e.1 c) init).lookup k)
      = if k ∈ preds.map Prod.fst then some c else init.lookup k := by
  induction preds generalizing init with
  | nil => simp
  | cons e ps ih =>
    rw [List.foldl_cons, ih]
    by_cases hk : k ∈ ps.map Prod.fst
    · simp [hk]
    · by_cases he : k = e.1
      · simp [hk, he, lookup_upsert]
      · simp [hk, he, lookup_upsert]

lemma lookup_freshModels_isSome (b : ℕ) (l : List (ℕ × ℕ)) (k : ℕ) :
    ((freshModels b l).lookup k).isSome = (l.lookup k).isSome := by
  induction l generalizing b with
  | nil => simp [freshModels]
  | cons e l ih =>
    obtain ⟨ek, ev⟩ := e
    by_cases hk : k = ek
    · subst hk
      simp [freshModels, lookup_cons_pair]
    · simp [freshModels, lookup_cons_pair, hk, ih]

lemma mem_keys_of_lookup_isSome {α : Type} (l : List (ℕ × α)) (k : ℕ)
    (h : (l.lookup k).isSome) : k ∈ l.map Prod.fst := by
  induction l with
  | nil => simp [List.lookup] at h
  | cons e l ih =>
    obtain ⟨ek, ev⟩ := e
    by_cases hk : k = ek
    · subst hk
      simp
    · have h' : (l.lookup k).isSome := by
        rw [lookup_cons_pair, if_neg hk] at h
        exact h
      simp [hk, ih h']

lemma learning_rate_update_process_model (s : ContinualLearner) (pid : ℕ)
    (f : ProcessFeatures) :
    (update_process_model s pid f).learning_rate = s.learning_rate := by
  unfold update_process_model
  by_cases h : (s.predictors.lookup pid).isNone <;> simp [h]

lemma learning_rate_foldl_update (ps : List ProcessMetrics) (ts : ℚ)
    (s : ContinualLearner) :
    ((ps.foldl (fun s' p => update_process_model s' p.pid (extract_features p ts)) s)).learning_rate
      = s.learning_rate := by
  induction ps generalizing s with
  | nil => rfl
  | cons p ps ih => rw [List.foldl_cons, ih, learning_rate_update_process_model]

/-! ## C4: when predict returns none -/

/-- C4, amended.  `predict_process_metrics` returns `None` exactly when
the pid has no predictor or its feature window is empty — one sample
already suffices for a prediction, the window need not hold
`sequence_length = 10` samples (see the counterexample) — and immediately
after `_handle_drift`, which clears every window and reinitializes every
model and optimizer, it returns `None` for every pid. -/
theorem predict_none_iff_no_predictor_or_empty_window
    (nn : ℕ → List ProcessFeatures → ℚ × ℚ × ℚ) (s : ContinualLearner) (pid : ℕ) :
    (predict_process_metrics nn s pid = none ↔
      s.predictors.lookup pid = none ∨
        (s.feature_history.lookup pid).getD [] = []) ∧
    ∀ q, predict_process_metrics nn (handle_drift s) q = none := by
  constructor
  · unfold predict_process_metrics
    cases hp : s.predictors.lookup pid with
    | none => simp
    | some g =>
      cases hh : (s.feature_history.lookup pid).getD [] with
      | nil => simp [hh]
      | cons f fs => simp [hh]
  · intro q
    unfold predict_process_metrics
    cases hq : (handle_drift s).predictors.lookup q with
    | none => simp
    | some g =>
      have hq' : ((handle_drift s).predictors.lookup q).isSome := by
        rw [hq]; rfl
      have hsome : (s.predictors.lookup q).isSome := by
        rw [← lookup_freshModels_isSome s.next_model]
        exact hq'
      have hmem : q ∈ s.predictors.map Prod.fst :=
        mem_keys_of_lookup_isSome s.predictors q hsome
      have hempty : (handle_drift s).feature_history.lookup q
          = some ([] : List ProcessFeatures) := by
        show ((s.predictors.foldl
          (fun h e => upsert h e.1 ([] : List ProcessFeatures))
          s.feature_history).lookup q) = _
        rw [lookup_foldl_upsert]
        simp [hmem]
      simp [hq, hempty]

/-- Counterexample to C4 as stated: `learner1` tracks pid 7 with a single
sample in its window — fewer than `sequence_length = 10` — yet
`predict_process_metrics` returns a prediction rather than `None`. -/
theorem predict_with_partial_window_counterexample :
    ((learner1.feature_history.lookup 7).getD []).length = 1 ∧
    sequence_length = 10 ∧
    predict_process_metrics nn0 learner1 7 = some (0, 0, 0) :=
  ⟨rfl, rfl, rfl⟩

/-! ## C8: anomaly handling doubles the learning rate -/

/-- C8.  On a tick whose anomaly score exceeds 0.8 the shared learning
rate after `update` is exactly twice the rate before it (the per-process
phase and drift handling never touch it), the doubled rate is written into
every optimizer entry; on any tick the rate never decreases (no decay
toward baseline exists), and `_handle_drift` itself leaves the shared
rate unchanged. -/
theorem anomaly_doubles_learning_rate (s : ContinualLearner) (m : SystemMetrics)
    (d : Bool) (score : ℚ) :
    ((0.8 : ℚ) < score →
      (ContinualLearner.update s m d score).learning_rate = 2 * s.learning_rate ∧
      ∀ e ∈ (ContinualLearner.update s m d score).optimizers,
        e.2 = 2 * s.learning_rate) ∧
    (0 ≤ s.learning_rate →
      s.learning_rate ≤ (ContinualLearner.update s m d score).learning_rate) ∧
    (handle_drift s).learning_rate = s.learning_rate := by
  have hlr2 : (detect_drift
      (m.processes.foldl
        (fun s' p => update_process_model s' p.pid (extract_features p m.timestamp)) s)
      d).learning_rate = s.learning_rate := by
    cases d <;>
      simp [detect_drift, handle_drift, learning_rate_foldl_update]
  refine ⟨?_, ?_, rfl⟩
  · intro hs
    unfold ContinualLearner.update detect_anomalies
    rw [if_pos hs]
    constructor
    · show (_ * (2 : ℚ)) = _
      rw [hlr2, mul_comm]
    · intro e he
      simp only [handle_anomaly, List.mem_map] at he
      obtain ⟨e', _, he'⟩ := he
      rw [← he']
      show (_ * (2 : ℚ)) = _
      rw [hlr2, mul_comm]
  · intro h0
    unfold ContinualLearner.update detect_anomalies
    by_cases hs : (0.8 : ℚ) < score
    · rw [if_pos hs]
      show s.learning_rate ≤ _ * (2 : ℚ)
      rw [hlr2]
      linarith
    · rw [if_neg hs, hlr2]

/-- Witness for C8 at a concrete input: an anomaly score of 1 doubles
`learner1`'s rate from 0.001 to 0.002 and rewrites its optimizer entry. -/
theorem anomaly_doubles_learning_rate_witness :
    (0.8 : ℚ) < 1 ∧
    (ContinualLearner.update learner1 mEmpty false 1).learning_rate
      = 2 * learner1.learning_rate ∧
    (∀ e ∈ (ContinualLearner.update learner1 mEmpty false 1).optimizers,
      e.2 = 2 * learner1.learning_rate) ∧
    (0 ≤ learner1.learning_rate →
      learner1.learning_rate ≤ (ContinualLearner.update learner1 mEmpty false 1).learning_rate) := by
  have h := anomaly_doubles_learning_rate learner1 mEmpty false 1
  exact ⟨by norm_num, (h.1 (by norm_num)).1, (h.1 (by norm_num)).2, h.2.1⟩

/-! ## C5: get_process_priority returns the record, not the float -/

/-- C5 (code bug).  `get_process_priority` returns `None` for an unknown
pid, but for a tracked pid it returns the whole `ProcessState` record —
here the full `pstate500` — not the scalar `priority` float its
`Optional[float]` annotation and the spec's `priority_of` promise. -/
theorem get_process_priority_returns_record :
    get_process_priority sched1 500 = some pstate500 ∧
    get_process_priority sched1 123 = none :=
  ⟨rfl, rfl⟩

/-! ## Norm lemmas -/

lemma normSq_nonneg {K : ℕ} (v : Fin K → ℝ) : 0 ≤ normSq v :=
  Finset.sum_nonneg fun i _ => sq_nonneg (v i)

lemma normSq_pos {K : ℕ} (v : Fin K → ℝ) (h : v ≠ 0) : 0 < normSq v := by
  obtain ⟨k, hk⟩ : ∃ k, v k ≠ 0 := by
    by_contra hall
    push_neg at hall
    exact h (funext hall)
  exact Finset.sum_pos' (fun i _ => sq_nonneg (v i))
    ⟨k, Finset.mem_univ k, by positivity⟩

lemma vnorm_pos {K : ℕ} (v : Fin K → ℝ) (h : v ≠ 0) : 0 < vnorm v :=
  Real.sqrt_pos.2 (normSq_pos v h)

lemma vnorm_sq {K : ℕ} (v : Fin K → ℝ) : vnorm v ^ 2 = normSq v :=
  Real.sq_sqrt (normSq_nonneg v)

lemma normSq_normalizeVec {K : ℕ} (v : Fin K → ℝ) (h : v ≠ 0) :
    normSq (normalizeVec v) = 1 := by
  unfold normSq normalizeVec
  rw [show ∀ f : Fin K → ℝ, (∑ i, (f i / vnorm v) ^ 2) = (∑ i, f i ^ 2) / vnorm v ^ 2
    from fun f => by simp only [div_pow]; rw [← Finset.sum_div]]
  rw [vnorm_sq]
  exact div_self (ne_of_gt (normSq_pos v h))

lemma vnorm_normalizeVec {K : ℕ} (v : Fin K → ℝ) (h : v ≠ 0) :
    vnorm (normalizeVec v) = 1 := by
  unfold vnorm
  rw [normSq_normalizeVec v h, Real.sqrt_one]

/-! ## C6: hamiltonian symmetry, diagonal, and range -/

lemma calculate_interaction_nonneg (u1 u2 : Usage) :
    0 ≤ calculate_interaction u1 u2 := by
  unfold calculate_interaction
  positivity

/-- C6, amended.  For every tick's state list the coupling matrix built by
`_create_hamiltonian` is symmetric with zero diagonal and every entry is
nonnegative; the entries are however unnormalized mean absolute usage
differences, not confined to `[0,1]` (see the counterexample). -/
theorem hamiltonian_symmetric_zero_diag_nonneg {K : ℕ}
    (states : List (PState K)) (i j : ℕ) :
    create_hamiltonian states i j = create_hamiltonian states j i ∧
    create_hamiltonian states i i = 0 ∧
    0 ≤ create_hamiltonian states i j := by
  refine ⟨?_, ?_, ?_⟩
  · unfold create_hamiltonian
    by_cases hij : i < states.length ∧ j < states.length
    · have hji : j < states.length ∧ i < states.length := ⟨hij.2, hij.1⟩
      rw [if_pos hij, if_pos hji]
      rcases lt_trichotomy i j with h | h | h
      · rw [if_pos h, if_neg (lt_asymm h), if_pos h]
      · subst h
        rfl
      · rw [if_neg (lt_asymm h), if_pos h, if_pos h]
    · have hji : ¬(j < states.length ∧ i < states.length) :=
        fun hc => hij ⟨hc.2, hc.1⟩
      rw [if_neg hij, if_neg hji]
  · unfold create_hamiltonian
    by_cases hii : i < states.length ∧ i < states.length
    · rw [if_pos hii, if_neg (lt_irrefl i), if_neg (lt_irrefl i)]
    · rw [if_neg hii]
  · unfold create_hamiltonian
    split_ifs <;>
      first
        | exact calculate_interaction_nonneg _ _
        | exact le_refl 0

/-- Counterexample to C6 as stated: two processes whose cpu usages differ
by 90 points get the off-diagonal coupling weight 30, far outside
`[0,1]`. -/
theorem hamiltonian_entry_exceeds_one_counterexample :
    create_hamiltonian (K := 4) [pUse0, pUse90] 0 1 = 30 ∧
    ¬ create_hamiltonian (K := 4) [pUse0, pUse90] 0 1 ≤ 1 := by
  have h : create_hamiltonian (K := 4) [pUse0, pUse90] 0 1 = 30 := by
    norm_num [create_hamiltonian, calculate_interaction, pUse0, pUse90]
  exact ⟨h, by rw [h]; norm_num⟩

/-! ## C7: similarity of identical and of all-zero usage vectors -/

/-- C7.  `_calculate_similarity` gives weight 1 to any pair of processes
with identical nonzero metric vectors; a process with an all-zero metric
vector has similarity 0 against anything, in both argument orders; and the
normalization never divides by a zero norm, since whenever the `np.any`
guard lets a vector be normalized its norm is strictly nonzero. -/
theorem similarity_identical_one_and_zero_zero (p q : EProc) :
    (metricsOf p = metricsOf q → metricsOf p ≠ 0 →
      calculate_similarity p q = 1) ∧
    (metricsOf p = 0 →
      calculate_similarity p q = 0 ∧ calculate_similarity q p = 0) ∧
    (metricsOf p ≠ 0 → vnorm (metricsOf p) ≠ 0) := by
  refine ⟨?_, ?_, fun h => ne_of_gt (vnorm_pos _ h)⟩
  · intro hpq hne
    unfold calculate_similarity guardNormalize
    rw [← hpq, if_neg hne]
    have hsum : (∑ i, normalizeVec (metricsOf p) i * normalizeVec (metricsOf p) i) = 1 := by
      have h1 := normSq_normalizeVec (metricsOf p) hne
      unfold normSq at h1
      calc (∑ i, normalizeVec (metricsOf p) i * normalizeVec (metricsOf p) i)
          = ∑ i, normalizeVec (metricsOf p) i ^ 2 :=
            Finset.sum_congr rfl fun i _ => (sq (normalizeVec (metricsOf p) i)).symm
        _ = 1 := h1
    rw [hsum]
    norm_num
  · intro h0
    unfold calculate_similarity guardNormalize
    rw [h0]
    constructor
    · rw [if_pos rfl]
      simp
    · rw [if_pos rfl]
      simp

/-- Witness for C7 at concrete inputs: identical (50,50,0) vectors give
similarity 1, and the all-zero vector gives 0 against (3,4,0) in both
orders. -/
theorem similarity_identical_one_and_zero_zero_witness :
    metricsOf ep50 ≠ 0 ∧ calculate_similarity ep50 ep50 = 1 ∧
    metricsOf epZero = 0 ∧ calculate_similarity epZero ep34 = 0 ∧
    calculate_similarity ep34 epZero = 0 := by
  have h1 : metricsOf ep50 ≠ 0 := by
    intro h
    have h2 := congrFun h 0
    simp [metricsOf, ep50] at h2
  have h0 : metricsOf epZero = 0 := by
    funext k
    fin_cases k <;> simp [metricsOf, epZero]
  exact ⟨h1, (similarity_identical_one_and_zero_zero ep50 ep50).1 rfl h1, h0,
    ((similarity_identical_one_and_zero_zero epZero ep34).2.1 h0).1,
    ((similarity_identical_one_and_zero_zero epZero ep34).2.1 h0).2⟩

/-! ## Annealing-loop lemmas -/

lemma getD_set_self {α : Type} (l : List α) (i : ℕ) (v d : α)
    (h : i < l.length) : (l.set i v).getD i d = v := by
  rw [List.getD_eq_getElem _ _ (by simpa using h)]
  simp [List.getElem_set]

lemma getD_set_ne {α : Type} (l : List α) (i j : ℕ) (v d : α)
    (h : i ≠ j) : (l.set j v).getD i d = l.getD i d := by
  by_cases hi : i < l.length
  · rw [List.getD_eq_getElem _ _ (by simpa using hi), List.getD_eq_getElem _ _ hi]
    simp [List.getElem_set, h.symm]
  · rw [List.getD_eq_default _ _ (by simpa using hi),
      List.getD_eq_default _ _ (by simpa using hi)]

lemma zeroVec_eq_zero {K : ℕ} : zeroVec K = 0 := rfl

lemma normalizeVec_zeroVec {K : ℕ} : normalizeVec (zeroVec K) = zeroVec K :=
  funext fun _ => zero_div _

lemma length_updateOne {K : ℕ} (H : ℕ → ℕ → ℝ) (T : ℝ)
    (cur : List (Fin K → ℝ)) (i : ℕ) :
    (updateOne H T cur i).length = cur.length := by
  unfold updateOne
  exact List.length_set cur i _

lemma length_foldl_updateOne {K : ℕ} (H : ℕ → ℕ → ℝ) (T : ℝ)
    (l : List ℕ) (cur : List (Fin K → ℝ)) :
    (l.foldl (updateOne H T) cur).length = cur.length := by
  induction l generalizing cur with
  | nil => rfl
  | cons a l ih => rw [List.foldl_cons, ih, length_updateOne]

lemma length_annealUpto {K : ℕ} (H : ℕ → ℕ → ℝ) (T : ℝ)
    (cur : List (Fin K → ℝ)) (k : ℕ) :
    (annealUpto H T cur k).length = cur.length :=
  length_foldl_updateOne H T (List.range k) cur

lemma annealUpto_succ {K : ℕ} (H : ℕ → ℕ → ℝ) (T : ℝ)
    (cur : List (Fin K → ℝ)) (k : ℕ) :
    annealUpto H T cur (k + 1) = updateOne H T (annealUpto H T cur k) k := by
  unfold annealUpto
  rw [List.range_succ, List.foldl_append]
  rfl

lemma annealStep_eq_annealUpto {K : ℕ} (H : ℕ → ℕ → ℝ) (T : ℝ)
    (cur : List (Fin K → ℝ)) :
    annealStep H T cur = annealUpto H T cur cur.length := rfl

lemma length_annealStep {K : ℕ} (H : ℕ → ℕ → ℝ) (T : ℝ)
    (cur : List (Fin K → ℝ)) :
    (annealStep H T cur).length = cur.length := by
  rw [annealStep_eq_annealUpto, length_annealUpto]

lemma length_quantum_annealing {K : ℕ} (H : ℕ → ℕ → ℝ) (T : ℝ)
    (cur : List (Fin K → ℝ)) :
    (quantum_annealing H T cur).length = cur.length := by
  unfold quantum_annealing
  generalize 100 = n
  induction n with
  | zero => rfl
  | succ n ih => rw [Function.iterate_succ_apply', length_annealStep, ih]

/-! ## C3: per-step renormalization -/

/-- C3, amended.  Within one annealing step, each index's renormalization
divides the post-force vector by its L2 norm with no zero guard:
whenever every post-force vector arising in the step (index `i` is
updated against the state list `annealUpto H T cur i`, which already
holds the updated values of indices below `i`) is nonzero, every state
vector after the step has exactly unit L2 norm.  A zero post-force vector
is instead divided by a zero norm — neither re-seeded with a fresh random
unit vector nor skipped (see the counterexample). -/
theorem annealStep_renormalizes_to_unit {K : ℕ} (H : ℕ → ℕ → ℝ) (T : ℝ)
    (cur : List (Fin K → ℝ))
    (h : ∀ i < cur.length, postForce H T (annealUpto H T cur i) i ≠ zeroVec K) :
    ∀ i < cur.length, vnorm ((annealStep H T cur).getD i (zeroVec K)) = 1 := by
  have key : ∀ k, k ≤ cur.length → ∀ i < k,
      vnorm ((annealUpto H T cur k).getD i (zeroVec K)) = 1 := by
    intro k
    induction k with
    | zero => omega
    | succ k ih =>
      intro hk i hi
      rw [annealUpto_succ]
      unfold updateOne
      rcases Nat.lt_succ_iff_lt_or_eq.1 hi with hik | hik
      · rw [getD_set_ne _ _ _ _ _ (Nat.ne_of_lt hik)]
        exact ih (by omega) i hik
      · subst hik
        rw [getD_set_self _ _ _ _ (by rw [length_annealUpto]; omega)]
        have hz := h i (by omega)
        rw [zeroVec_eq_zero] at hz
        exact vnorm_normalizeVec _ hz
  intro i hi
  rw [annealStep_eq_annealUpto]
  exact key cur.length (le_refl _) i hi

/-- Witness for (amended) C3 at a concrete input: a single process with
state `e0vec` under the zero coupling matrix has nonzero post-force
vector, and after the step its state has unit norm. -/
theorem annealStep_renormalizes_to_unit_witness :
    (∀ i < ([e0vec] : List (Fin 4 → ℝ)).length,
      postForce Hzero 1 (annealUpto Hzero 1 [e0vec] i) i ≠ zeroVec 4) ∧
    vnorm ((annealStep Hzero 1 [e0vec]).getD 0 (zeroVec 4)) = 1 := by
  have hyp : ∀ i < ([e0vec] : List (Fin 4 → ℝ)).length,
      postForce Hzero 1 (annealUpto Hzero 1 [e0vec] i) i ≠ zeroVec 4 := by
    intro i hi
    have hi0 : i = 0 := by simpa using hi
    subst hi0
    intro heq
    have h0 := congrFun heq 0
    simp [postForce, forceVec, annealUpto, zeroVec, Hzero, e0vec,
      Finset.sum_range_succ] at h0
  exact ⟨hyp, annealStep_renormalizes_to_unit Hzero 1 [e0vec] hyp 0 (by simp)⟩

/-- Counterexample to C3 as stated: with states `e0vec` and `negE0` and
coupling 1/2 at temperature 1, the post-force vector at index 0 is exactly
zero, so the code divides by a zero norm; the stored state after the step
is the zero vector — of norm 0, not 1 — and it is neither the old state
(no skip) nor any unit vector (no re-seed). -/
theorem annealStep_zero_vector_counterexample :
    postForce Hhalf 1 [e0vec, negE0] 0 = zeroVec 4 ∧
    (annealStep Hhalf 1 [e0vec, negE0]).getD 0 (zeroVec 4) = zeroVec 4 ∧
    vnorm (zeroVec 4) = 0 ∧
    (annealStep Hhalf 1 [e0vec, negE0]).getD 0 (zeroVec 4) ≠ e0vec := by
  have h1 : postForce Hhalf 1 [e0vec, negE0] 0 = zeroVec 4 := by
    funext k
    by_cases hk : k = 0
    · subst hk
      simp [postForce, forceVec, Hhalf, e0vec, negE0, zeroVec,
        Finset.sum_range_succ]
      norm_num
    · simp [postForce, forceVec, Hhalf, e0vec, negE0, zeroVec,
        Finset.sum_range_succ, hk]
  have hrange : List.range 2 = [0, 1] := by
    simp [List.range_succ]
  have h2 : (annealStep Hhalf 1 [e0vec, negE0]).getD 0 (zeroVec 4) = zeroVec 4 := by
    show ((List.range ([e0vec, negE0] : List (Fin 4 → ℝ)).length).foldl
      (updateOne Hhalf 1) [e0vec, negE0]).getD 0 (zeroVec 4) = zeroVec 4
    rw [show ([e0vec, negE0] : List (Fin 4 → ℝ)).length = 2 from rfl, hrange]
    rw [List.foldl_cons, List.foldl_cons, List.foldl_nil]
    show (updateOne Hhalf 1 (updateOne Hhalf 1 [e0vec, negE0] 0) 1).getD 0 (zeroVec 4)
      = zeroVec 4
    unfold updateOne
    rw [getD_set_ne _ _ _ _ _ (by omega)]
    rw [getD_set_self _ _ _ _ (by simp)]
    rw [h1, normalizeVec_zeroVec]
  refine ⟨h1, h2, ?_, ?_⟩
  · unfold vnorm normSq
    simp [zeroVec]
  · rw [h2]
    intro h
    have h0 := congrFun h 0
    simp [zeroVec, e0vec] at h0

/-! ## C2: the stored priority after a relaxation pass -/

lemma getD_zipWith {α β γ : Type} (f : α → β → γ) (l1 : List α) (l2 : List β)
    (i : ℕ) (d1 : α) (d2 : β) (d3 : γ) (h1 : i < l1.length) (h2 : i < l2.length) :
    (List.zipWith f l1 l2).getD i d3 = f (l1.getD i d1) (l2.getD i d2) := by
  rw [List.getD_eq_getElem _ _ (by rw [List.length_zipWith]; exact lt_min h1 h2),
    List.getD_eq_getElem _ _ h1, List.getD_eq_getElem _ _ h2]
  exact List.getElem_zipWith

lemma optimize_scheduling_priority_getD {K : ℕ} (now : ℚ) (s : QScheduler K)
    (i : ℕ) (hi : i < s.process_states.length) :
    ((optimize_scheduling now s).process_states.getD i default).2.priority
      = calculate_priority
          ((quantum_annealing (create_hamiltonian (s.process_states.map Prod.snd))
              s.temperature
              ((s.process_states.map Prod.snd).map (·.quantum_state))).getD i (zeroVec K))
          (s.process_states.getD i default).2.resource_usage := by
  have hne : s.process_states.isEmpty = false := by
    cases hps : s.process_states with
    | nil => rw [hps] at hi; simp at hi
    | cons e l => simp [hps]
  unfold optimize_scheduling
  rw [hne]
  simp only [Bool.false_eq_true, if_false]
  rw [getD_zipWith _ s.process_states _ i default (zeroVec K) default hi
    (by rw [length_quantum_annealing, List.length_map, List.length_map]; exact hi)]

/-- C2, amended.  After a relaxation pass, the priority stored for the
i-th tracked process equals
`0.7 * mean(state_i) + 0.3 * (cpu_percent_i + memory_percent_i) / 2`
computed on its annealed state vector and last stored usage — the
resource term is **not** divided by 100 and no clamp to [0,1] is applied,
so stored priorities are not confined to [0,1] (see the
counterexample). -/
theorem pass_priority_is_unclamped_formula {K : ℕ} (now : ℚ) (s : QScheduler K)
    (i : ℕ) (hi : i < s.process_states.length) :
    ((optimize_scheduling now s).process_states.getD i default).2.priority
      = 0.7 * npMean
          ((quantum_annealing (create_hamiltonian (s.process_states.map Prod.snd))
              s.temperature
              ((s.process_states.map Prod.snd).map (·.quantum_state))).getD i (zeroVec K))
        + 0.3 * (((s.process_states.getD i default).2.resource_usage.cpu
            + (s.process_states.getD i default).2.resource_usage.memory) / 2) := by
  rw [optimize_scheduling_priority_getD now s i hi]
  rfl

/-- Witness for (amended) C2 at a concrete input: the formula holds for
the single process of `sched1`. -/
theorem pass_priority_is_unclamped_formula_witness :
    0 < sched1.process_states.length ∧
    ((optimize_scheduling 1 sched1).process_states.getD 0 default).2.priority
      = 0.7 * npMean
          ((quantum_annealing (create_hamiltonian (sched1.process_states.map Prod.snd))
              sched1.temperature
              ((sched1.process_states.map Prod.snd).map (·.quantum_state))).getD 0 (zeroVec 4))
        + 0.3 * (((sched1.process_states.getD 0 default).2.resource_usage.cpu
            + (sched1.process_states.getD 0 default).2.resource_usage.memory) / 2) :=
  ⟨by simp [sched1],
   pass_priority_is_unclamped_formula 1 sched1 0 (by simp [sched1])⟩

lemma vnorm_qhalf : vnorm qhalf = 1 := by
  unfold vnorm normSq qhalf
  rw [show (∑ _i : Fin 4, ((1 : ℝ) / 2) ^ 2) = 1 by
    simp [Finset.sum_const, Finset.card_univ]; norm_num]
  exact Real.sqrt_one

lemma annealStep_qhalf_fixed (H : ℕ → ℕ → ℝ) (T : ℝ) :
    annealStep H T [qhalf] = [qhalf] := by
  have hpf : postForce H T [qhalf] 0 = qhalf := by
    funext k
    simp [postForce, forceVec, Finset.sum_range_succ]
  have hnq : normalizeVec qhalf = qhalf := by
    funext k
    simp [normalizeVec, vnorm_qhalf]
  show (List.range ([qhalf] : List (Fin 4 → ℝ)).length).foldl (updateOne H T) [qhalf]
    = [qhalf]
  rw [show ([qhalf] : List (Fin 4 → ℝ)).length = 1 from rfl,
    show List.range 1 = [0] from rfl, List.foldl_cons, List.foldl_nil]
  show updateOne H T [qhalf] 0 = [qhalf]
  unfold updateOne
  rw [hpf, hnq]
  rfl

lemma npMean_qhalf : npMean qhalf = 1 / 2 := by
  unfold npMean qhalf
  rw [show (∑ _i : Fin 4, ((1 : ℝ) / 2)) = 2 by
    simp [Finset.sum_const, Finset.card_univ]; norm_num]
  norm_num

/-- Counterexample to C2 as stated: for `sched1` (state vector `qhalf`,
cpu = memory = 50) the pass stores priority 15.35, outside [0,1], while
the spec's clamped formula would give 0.5. -/
theorem scheduler_priority_exceeds_one_counterexample :
    ((optimize_scheduling 1 sched1).process_states.getD 0 default).2.priority = 15.35 ∧
    ¬ ((optimize_scheduling 1 sched1).process_states.getD 0 default).2.priority ≤ 1 ∧
    spec_priority qhalf usage50 = 0.5 ∧
    ((optimize_scheduling 1 sched1).process_states.getD 0 default).2.priority
      ≠ spec_priority qhalf usage50 := by
  have hqa : quantum_annealing (create_hamiltonian (sched1.process_states.map Prod.snd))
      sched1.temperature ((sched1.process_states.map Prod.snd).map (·.quantum_state))
      = [qhalf] := by
    show (annealStep _ _)^[100] ((sched1.process_states.map Prod.snd).map (·.quantum_state))
      = [qhalf]
    rw [show ((sched1.process_states.map Prod.snd).map (·.quantum_state))
        = [qhalf] from rfl]
    exact Function.iterate_fixed (annealStep_qhalf_fixed _ _) 100
  have hp : ((optimize_scheduling 1 sched1).process_states.getD 0 default).2.priority
      = 15.35 := by
    rw [optimize_scheduling_priority_getD 1 sched1 0 (by simp [sched1]), hqa]
    show calculate_priority qhalf (sched1.process_states.getD 0 default).2.resource_usage
      = 15.35
    rw [show (sched1.process_states.getD 0 default).2.resource_usage = usage50 from rfl]
    unfold calculate_priority
    rw [npMean_qhalf]
    show (0.7 : ℝ) * (1 / 2) + 0.3 * ((50 + 50) / 2) = 15.35
    norm_num
  have hspec : spec_priority qhalf usage50 = 0.5 := by
    unfold spec_priority
    rw [npMean_qhalf]
    show min 1 (max 0 ((0.7 : ℝ) * (1 / 2) + 0.3 * ((50 + 50) / 2) / 100)) = 0.5
    norm_num
  refine ⟨hp, by rw [hp]; norm_num, hspec, by rw [hp, hspec]; norm_num⟩

end AIPA
